import Mathlib

/-!
Shallow embedding of the Aetheria task-orchestration core: the SSH remote
executor and bulk dispatcher (`src/ssh/SSHManager.js`), the persistence
operations they drive (`src/database/Database.js`), the task orchestrator
(`src/tasks/TaskManager.js`) and the `/api/tasks/execute` route with its Joi
validation schema (`src/routes/tasks.js`).

Asynchronous JavaScript is embedded as a sequential trace of state-changing
operations: each `await`ed database write, registry mutation and socket
emission of one `executeTask` call becomes one `Op`, interpreted over an
explicit system state by `doOp`.  Machine integers are `Int`/`Nat`; JSON
serialization (`JSON.stringify`/`JSON.parse`) is modelled by a round-tripping
wrapper `Ser`; wall-clock timestamps (`Date.now()`, `CURRENT_TIMESTAMP`) by a
logical clock that ticks once per operation.
-/

namespace Aetheria

/-- A row of the `servers` table (`Database.js`, `createServersTable`):
`private_key_path` and `password` are nullable TEXT columns, `port` a nullable
integer, `status` defaults to `'unknown'`. -/
structure Server where
  id : Int
  name : String
  ip : String
  username : String
  privateKeyPath : Option String := none
  password : Option String := none
  port : Option Int := none
  status : String := "unknown"
  lastCheck : Option Nat := none
  deriving Repr, DecidableEq

/-- JavaScript truthiness of a nullable string: `null`/`undefined` and `""`
are falsy, every other string is truthy. -/
def strTruthy : Option String → Bool
  | none => false
  | some s => !(s == "")

/-- JavaScript `x || d` on a nullable integer (`server.port || 22`):
`null`, `undefined` and `0` are falsy. -/
def intOr : Option Int → Int → Int
  | none, d => d
  | some 0, d => d
  | some n, _ => n

/-- JavaScript `x || d` on a nullable natural (`options.maxConcurrent || 5`):
`null`, `undefined` and `0` are falsy. -/
def natOr : Option Nat → Nat → Nat
  | none, d => d
  | some 0, d => d
  | some n, _ => n

/-- The authentication part of the `connectionConfig` built by
`SSHManager.createConnection`: exactly one of private-key material or a
password. -/
inductive AuthMethod where
  | privateKey (material : String)
  | password (pw : String)
  deriving Repr, DecidableEq

/-- The `connectionConfig` object passed to `ssh.connect`
(SSHManager.js lines 12-18); `readyTimeout` and `tryKeyboard` are fixed
constants and carry no information. -/
structure ConnConfig where
  host : String
  username : String
  port : Int
  auth : AuthMethod
  deriving Repr, DecidableEq

/-- The dynamic `options` object accepted by `executeCommand` and
`executeBulkCommand` (recognized fields: `cwd`, `timeout`, `maxConcurrent`). -/
structure ExecOptions where
  cwd : Option String := none
  timeout : Option Nat := none
  maxConcurrent : Option Nat := none
  deriving Repr, DecidableEq

/-- What a successful `ssh.execCommand` resolves to: the remote exit code and
the captured output streams. -/
structure CmdOutcome where
  code : Int
  stdout : String
  stderr : String
  deriving Repr, DecidableEq

/-- Environment oracle for the filesystem and the SSH transport:
`keyFileExists`/`readKeyFile` model `fs.existsSync`/`fs.readFileSync`,
`connect` models `ssh.connect` (`some msg` = the connection attempt rejected
with that error message), `runCommand` models `ssh.execCommand` (which can
itself reject with a transport error), and `elapsed` models the wall-clock
duration `Date.now() - startTime` measured for one call. -/
structure SshEnv where
  keyFileExists : String → Bool
  readKeyFile : String → String
  connect : ConnConfig → Option String
  runCommand : ConnConfig → String → ExecOptions → Except String CmdOutcome
  elapsed : Server → String → Nat

/-- The key path used by `createConnection` (empty when the column is NULL). -/
def keyPathOf (server : Server) : String := server.privateKeyPath.getD ""

/-- Auth selection of `SSHManager.createConnection` (lines 20-27):
`if (server.private_key_path && fs.existsSync(...)) privateKey else if
(server.password) password else throw`. -/
def chooseAuth (env : SshEnv) (server : Server) : Except String AuthMethod :=
  if strTruthy server.privateKeyPath && env.keyFileExists (keyPathOf server) then
    .ok (.privateKey (env.readKeyFile (keyPathOf server)))
  else if strTruthy server.password then
    .ok (.password (server.password.getD ""))
  else
    .error ("No authentication method available for server " ++ server.name)

/-- `SSHManager.createConnection` (lines 9-31): build the connection config,
choose the auth method, then attempt `ssh.connect`; any failure is raised
(returned in the `error` branch). -/
def createConnection (env : SshEnv) (server : Server) : Except String ConnConfig :=
  match chooseAuth env server with
  | .error e => .error e
  | .ok auth =>
    let cfg : ConnConfig :=
      { host := server.ip, username := server.username,
        port := intOr server.port 22, auth := auth }
    match env.connect cfg with
    | some err => .error err
    | none => .ok cfg

/-- The denormalized `server` summary embedded in every result
(SSHManager.js lines 53-57). -/
structure ServerRef where
  id : Int
  name : String
  ip : String
  deriving Repr, DecidableEq

/-- Build the `server` summary object of a result. -/
def serverRefOf (server : Server) : ServerRef :=
  { id := server.id, name := server.name, ip := server.ip }

/-- The `ExecutionResult` object produced by `executeCommand`: `errorMsg`
models the extra `error` field that is present only on the catch path. -/
structure ExecResult where
  success : Bool
  stdout : String
  stderr : String
  code : Int
  executionTime : Nat
  server : ServerRef
  errorMsg : Option String := none
  deriving Repr, DecidableEq

/-- The options object passed to `ssh.execCommand` (line 40-43):
`{ cwd: options.cwd || '/home/' + username, ...options }`.  The spread comes
after `cwd`, so a caller-supplied `cwd` (even `""`) wins and the default
applies only when the caller supplied none. -/
def effectiveExecOptions (server : Server) (options : ExecOptions) : ExecOptions :=
  { options with
      cwd := some (match options.cwd with
        | some c => c
        | none => "/home/" ++ server.username) }

/-- The body of the `try` block of `executeCommand` (lines 38-43) as a
raisable computation: connect, then run the command over the session. -/
def executeCommandBody (env : SshEnv) (server : Server) (command : String)
    (options : ExecOptions) : Except String CmdOutcome :=
  match createConnection env server with
  | .error e => .error e
  | .ok cfg => env.runCommand cfg command (effectiveExecOptions server options)

/-- `SSHManager.executeCommand` (lines 33-81): run the body and fold any
raised error into a failed result with the sentinel exit code -1 (the `catch`
block, lines 60-75).  Total by construction: it never raises to its caller.
The `finally` session disposal has no observable effect on the result. -/
def executeCommand (env : SshEnv) (server : Server) (command : String)
    (options : ExecOptions) : ExecResult :=
  match executeCommandBody env server command options with
  | .ok r =>
    { success := r.code == 0, stdout := r.stdout, stderr := r.stderr,
      code := r.code, executionTime := env.elapsed server command,
      server := serverRefOf server }
  | .error e =>
    { success := false, stdout := "", stderr := e, code := -1,
      executionTime := env.elapsed server command,
      server := serverRefOf server, errorMsg := some e }

/-- `const maxConcurrent = options.maxConcurrent || 5` (line 84). -/
def effectiveMaxConcurrent (options : ExecOptions) : Nat :=
  natOr options.maxConcurrent 5

/-- The batch loop of `executeBulkCommand` (lines 88-111), fuel-indexed: each
iteration takes one batch of `k` servers, maps `executeCommand` over it
(`Promise.all` resolves in input order), appends, and recurses on the rest.
`fuel ≥ servers.length` suffices whenever `k ≥ 1`; the source loop diverges
for `k = 0`, a value `options.maxConcurrent || 5` never produces.  The
inter-batch `setTimeout` pacing delay has no observable effect on the result
list. -/
def bulkGo (env : SshEnv) (command : String) (options : ExecOptions) (k : Nat) :
    Nat → List Server → List ExecResult
  | _, [] => []
  | 0, _ :: _ => []
  | fuel + 1, server :: rest =>
    ((server :: rest).take k).map (fun s => executeCommand env s command options)
      ++ bulkGo env command options k fuel (rest.drop (k - 1))

/-- `SSHManager.executeBulkCommand` (lines 83-114).  The per-promise `.catch`
fallback (lines 93-101) is unreachable because `executeCommand` never
rejects, so every result comes from `executeCommand` itself. -/
def executeBulkCommand (env : SshEnv) (servers : List Server) (command : String)
    (options : ExecOptions) : List ExecResult :=
  bulkGo env command options (effectiveMaxConcurrent options) servers.length servers

/-- The error message raised when a host has no usable authentication method
(SSHManager.js line 26). -/
def authUnavailableMsg (server : Server) : String :=
  "No authentication method available for server " ++ server.name

/-- An environment in which every connection attempt is refused by the
network. -/
def envConnFail : SshEnv :=
  { keyFileExists := fun _ => false, readKeyFile := fun _ => "",
    connect := fun _ => some "connect ECONNREFUSED 10.0.0.1:22",
    runCommand := fun _ _ _ => .ok ⟨0, "", ""⟩,
    elapsed := fun _ _ => 7 }

/-- A host configured with password authentication only. -/
def srvPw : Server :=
  { id := 1, name := "web1", ip := "10.0.0.1", username := "root",
    password := some "secret" }

/-- An environment in which the key file exists, connections succeed and the
remote command exits 0. -/
def envKeyOk : SshEnv :=
  { keyFileExists := fun _ => true, readKeyFile := fun _ => "KEYMATERIAL",
    connect := fun _ => none,
    runCommand := fun _ _ _ => .ok ⟨0, "ok", ""⟩,
    elapsed := fun _ _ => 3 }

/-- A host configured with both a private key and a password. -/
def srvBoth : Server :=
  { id := 2, name := "db1", ip := "10.0.0.2", username := "root",
    privateKeyPath := some "/root/.ssh/id_rsa", password := some "secret" }

/-- A host configured with neither a private key nor a password. -/
def srvNoAuth : Server :=
  { id := 3, name := "bare", ip := "10.0.0.3", username := "deploy" }

/-- Serialized structured text (`JSON.stringify`ed data), modelled abstractly
as a round-tripping wrapper: the orchestrator only ever parses what it
itself stringified. -/
structure Ser (α : Type) where
  val : α
  deriving Repr, DecidableEq

/-- `JSON.stringify`. -/
def jsonStringify {α : Type} (a : α) : Ser α := ⟨a⟩

/-- `JSON.parse` of a value produced by `jsonStringify`. -/
def jsonParse {α : Type} (s : Ser α) : α := s.val

/-- The aggregate object stored with a terminal `completed`/`partial` status
(TaskManager.js lines 651-656). -/
structure Aggregate where
  results : List ExecResult
  successRate : Rat
  successCount : Nat
  totalCount : Nat
  deriving Repr, DecidableEq

/-- What `updateTaskStatus` serializes into the `results` column: the
aggregate on the completed/partial path, `{ error: message }` on the failed
path. -/
inductive TaskResults where
  | agg (a : Aggregate)
  | err (message : String)
  deriving Repr, DecidableEq

/-- A row of the `tasks` table (`Database.js`, `createTasksTable`):
`status` defaults to `'pending'`, `results` and `completed_at` to NULL. -/
structure TaskRow where
  id : Nat
  name : String
  command : String
  serverIdsJson : Ser (List Int)
  status : String := "pending"
  resultsJson : Option (Ser TaskResults) := none
  createdAt : Nat
  completedAt : Option Nat := none
  deriving Repr, DecidableEq

/-- A row of the `logs` table. -/
structure LogRow where
  serverId : Int
  taskId : Nat
  command : String
  output : String
  errorTxt : String
  executionTime : Nat
  createdAt : Nat
  deriving Repr, DecidableEq

/-- The relational store: `servers`, `tasks` (with the AUTOINCREMENT counter
that assigns task ids) and `logs`. -/
structure DbState where
  servers : List Server
  tasks : List TaskRow := []
  nextTaskId : Nat := 1
  logs : List LogRow := []
  deriving Repr, DecidableEq

/-- `Database.getServerById`: `SELECT * FROM servers WHERE id = ?`
(`undefined` when absent). -/
def getServerById (db : DbState) (id : Int) : Option Server :=
  db.servers.find? (fun s => s.id == id)

/-- The per-row effect of `Database.updateTaskStatus` (Database.js lines
153-160): `SET status = ?, results = ?, completed_at = CURRENT_TIMESTAMP`.
Note that `completed_at` is (re)written on every call, whatever the new
status is. -/
def updTaskRow (clock : Nat) (id : Nat) (status : String)
    (results : Option TaskResults) (r : TaskRow) : TaskRow :=
  if r.id == id then
    { r with status := status, resultsJson := results.map jsonStringify,
             completedAt := some clock }
  else r

/-- `Database.updateTaskStatus` applied to the whole table. -/
def dbUpdateTaskStatus (db : DbState) (clock : Nat) (id : Nat) (status : String)
    (results : Option TaskResults) : DbState :=
  { db with tasks := db.tasks.map (updTaskRow clock id status results) }

/-- The value stored in the in-memory `runningTasks` map:
`{ status: 'running', startTime: Date.now() }`. -/
structure RunInfo where
  status : String
  startTime : Nat
  deriving Repr, DecidableEq

/-- The per-host progress summary included in the `taskCompleted` payload
(TaskManager.js lines 667-672). -/
structure ProgressSummary where
  serverId : Int
  serverName : String
  success : Bool
  executionTime : Nat
  deriving Repr, DecidableEq

/-- The lifecycle events broadcast over the socket channel. -/
inductive Event where
  | taskStarted (taskId : Nat) (name command : String) (serverCount : Nat)
  | taskProgress (taskId : Nat) (serverId : Int) (serverName : String)
      (success : Bool) (output errorTxt : String)
  | taskCompleted (taskId : Nat) (status : String) (successRate : Rat)
      (successCount totalCount : Nat) (results : List ProgressSummary)
  | taskFailed (taskId : Nat) (errorMsg : String)
  deriving Repr, DecidableEq

/-- The value `executeTask` resolves with: `{success: true, taskId, status,
results, successRate}` on the normal path, `{success: false, taskId, error}`
on the catch path. -/
inductive ExecReturn where
  | ok (taskId : Nat) (status : String) (results : List ExecResult)
      (successRate : Rat)
  | err (taskId : Nat) (message : String)
  deriving Repr, DecidableEq

/-- One state-changing operation of an `executeTask` run: each `await`ed
database write, each mutation of the running-task registry, each socket
emission, and the final resolution of the returned promise. -/
inductive Op where
  | createTask (name command : String) (serverIds : List Int)
  | registrySet (taskId : Nat)
  | registryDelete (taskId : Nat)
  | updateTaskStatus (taskId : Nat) (status : String) (results : Option TaskResults)
  | addLog (serverId : Int) (taskId : Nat) (command output errorTxt : String)
      (executionTime : Nat)
  | updateServerStatus (serverId : Int) (status : String)
  | emit (e : Event)
  | ret (r : ExecReturn)
  deriving Repr, DecidableEq

/-- The whole mutable system: the store, the in-memory running-task registry
(`runningTasks` map as an association list), the emitted event log, and a
logical clock that ticks once per operation (standing in for `Date.now()` /
`CURRENT_TIMESTAMP`). -/
structure Sys where
  db : DbState
  running : List (Nat × RunInfo) := []
  events : List Event := []
  clock : Nat := 0
  deriving Repr, DecidableEq

/-- Interpret one operation over the system state. -/
def doOp (sys : Sys) (op : Op) : Sys :=
  let clock := sys.clock + 1
  match op with
  | .createTask name command serverIds =>
    { sys with
      clock := clock,
      db := { sys.db with
              tasks := sys.db.tasks ++
                [{ id := sys.db.nextTaskId, name := name, command := command,
                   serverIdsJson := jsonStringify serverIds, createdAt := clock }],
              nextTaskId := sys.db.nextTaskId + 1 } }
  | .registrySet id =>
    { sys with
      clock := clock,
      running := sys.running.filter (fun p => !(p.1 == id))
        ++ [(id, { status := "running", startTime := clock })] }
  | .registryDelete id =>
    { sys with
      clock := clock,
      running := sys.running.filter (fun p => !(p.1 == id)) }
  | .updateTaskStatus id status results =>
    { sys with
      clock := clock,
      db := dbUpdateTaskStatus sys.db clock id status results }
  | .addLog serverId taskId command output errorTxt executionTime =>
    { sys with
      clock := clock,
      db := { sys.db with
              logs := sys.db.logs ++
                [{ serverId := serverId, taskId := taskId, command := command,
                   output := output, errorTxt := errorTxt,
                   executionTime := executionTime, createdAt := clock }] } }
  | .updateServerStatus serverId status =>
    { sys with
      clock := clock,
      db := { sys.db with
              servers := sys.db.servers.map (fun s =>
                if s.id == serverId then
                  { s with status := status, lastCheck := some clock }
                else s) } }
  | .emit e => { sys with clock := clock, events := sys.events ++ [e] }
  | .ret _ => { sys with clock := clock }

/-- Run a list of operations, recording the state reached after each one. -/
def runTrace (sys : Sys) : List Op → List (Op × Sys)
  | [] => []
  | op :: rest =>
    let sys1 := doOp sys op
    (op, sys1) :: runTrace sys1 rest

/-- The state after running a list of operations. -/
def runFinal (sys : Sys) (ops : List Op) : Sys :=
  ops.foldl doOp sys

/-- Host resolution of `executeTask` (TaskManager.js lines 601-605):
`serverIds.map(getServerById)` then drop the `undefined` entries, preserving
order and duplicates. -/
def validServersOf (db : DbState) (serverIds : List Int) : List Server :=
  serverIds.filterMap (fun i => getServerById db i)

/-- The task specification accepted by `TaskManager.executeTask`. -/
structure TaskData where
  name : String
  command : String
  serverIds : List Int
  options : ExecOptions := {}
  deriving Repr, DecidableEq

/-- The result list the dispatch of a task produces (empty when no host
resolves, in which case the dispatcher is never invoked). -/
def taskResultsOf (env : SshEnv) (sys : Sys) (td : TaskData) : List ExecResult :=
  executeBulkCommand env (validServersOf sys.db td.serverIds) td.command td.options

/-- `successCount` of a result list (line 644). -/
def successCountOf (results : List ExecResult) : Nat :=
  (results.filter (fun r => r.success)).length

/-- `successRate = (successCount / totalCount) * 100` (line 646), in exact
rational arithmetic. -/
def successRateOf (results : List ExecResult) : Rat :=
  (successCountOf results : Rat) / (results.length : Rat) * 100

/-- `finalStatus = successRate === 100 ? 'completed' : 'partial'`
(line 648). -/
def finalStatusOf (results : List ExecResult) : String :=
  if successRateOf results = 100 then "completed" else "partial"

/-- The `taskProgress` event for one result (lines 633-640). -/
def progressEventOf (taskId : Nat) (r : ExecResult) : Event :=
  .taskProgress taskId r.server.id r.server.name r.success r.stdout r.stderr

/-- The three operations of one iteration of the per-result loop
(lines 618-641): persist a log row, update the host status to
`online`/`error`, publish a `taskProgress` event. -/
def progressOpsFor (taskId : Nat) (command : String) (r : ExecResult) : List Op :=
  [ .addLog r.server.id taskId command r.stdout r.stderr r.executionTime,
    .updateServerStatus r.server.id (if r.success then "online" else "error"),
    .emit (progressEventOf taskId r) ]

/-- `TaskManager.executeTask` (lines 583-697) as its sequence of operations:
create the Pending task row, register it in `runningTasks`, publish
`taskStarted`; then either (no host resolves) take the catch path — persist
`failed`, unregister, publish `taskFailed`, resolve with the error — or
persist `running`, dispatch, run the per-result loop, persist the terminal
status with the aggregate, unregister, publish `taskCompleted` and resolve.
The promise resolves (`Op.ret`) only after everything else. -/
def executeTaskOps (env : SshEnv) (sys : Sys) (td : TaskData) : List Op :=
  let taskId := sys.db.nextTaskId
  let vs := validServersOf sys.db td.serverIds
  [ Op.createTask td.name td.command td.serverIds,
    Op.registrySet taskId,
    Op.emit (.taskStarted taskId td.name td.command td.serverIds.length) ] ++
  (if vs.length == 0 then
    [ Op.updateTaskStatus taskId "failed" (some (.err "No valid servers found")),
      Op.registryDelete taskId,
      Op.emit (.taskFailed taskId "No valid servers found"),
      Op.ret (.err taskId "No valid servers found") ]
  else
    let results := taskResultsOf env sys td
    [ Op.updateTaskStatus taskId "running" none ] ++
    (results.map (progressOpsFor taskId td.command)).join ++
    [ Op.updateTaskStatus taskId (finalStatusOf results)
        (some (.agg { results := results, successRate := successRateOf results,
                      successCount := successCountOf results,
                      totalCount := results.length })),
      Op.registryDelete taskId,
      Op.emit (.taskCompleted taskId (finalStatusOf results)
        (successRateOf results) (successCountOf results) results.length
        (results.map (fun r =>
          { serverId := r.server.id, serverName := r.server.name,
            success := r.success, executionTime := r.executionTime }))),
      Op.ret (.ok taskId (finalStatusOf results) results
        (successRateOf results)) ])

/-- The trace of one `executeTask` call: each operation with the state it
leaves behind. -/
def executeTaskTrace (env : SshEnv) (sys : Sys) (td : TaskData) :
    List (Op × Sys) :=
  runTrace sys (executeTaskOps env sys td)

/-- The system state when `executeTask`'s promise resolves. -/
def executeTaskFinal (env : SshEnv) (sys : Sys) (td : TaskData) : Sys :=
  runFinal sys (executeTaskOps env sys td)

/-- The value `executeTask` resolves with. -/
def executeTaskReturn (env : SshEnv) (sys : Sys) (td : TaskData) :
    Option ExecReturn :=
  (executeTaskOps env sys td).reverse.findSome? (fun op =>
    match op with
    | .ret r => some r
    | _ => none)

/-- The enriched task object `TaskManager.getTaskStatus` returns
(lines 699-713). -/
structure TaskStatusView where
  id : Nat
  name : String
  command : String
  status : String
  createdAt : Nat
  completedAt : Option Nat
  isRunning : Bool
  results : Option TaskResults
  serverIds : List Int
  deriving Repr, DecidableEq

/-- `TaskManager.getTaskStatus`: `null` when no row exists; otherwise the row
enriched with the live `isRunning` flag and the decoded `results` and
`serverIds`. -/
def getTaskStatus (sys : Sys) (taskId : Nat) : Option TaskStatusView :=
  match sys.db.tasks.find? (fun r => r.id == taskId) with
  | none => none
  | some t => some
    { id := t.id, name := t.name, command := t.command, status := t.status,
      createdAt := t.createdAt, completedAt := t.completedAt,
      isRunning := sys.running.any (fun p => p.1 == taskId),
      results := t.resultsJson.map jsonParse,
      serverIds := jsonParse t.serverIdsJson }

/-- The status column of the persisted row of a task. -/
def persistedStatus (sys : Sys) (taskId : Nat) : Option String :=
  (sys.db.tasks.find? (fun r => r.id == taskId)).map (fun r => r.status)

/-- The `completed_at` column of the persisted row of a task. -/
def persistedCompletedAt (sys : Sys) (taskId : Nat) : Option (Option Nat) :=
  (sys.db.tasks.find? (fun r => r.id == taskId)).map (fun r => r.completedAt)

/-- The success rate recorded in the persisted aggregate of a task, when the
row exists and holds an aggregate. -/
def persistedRate (sys : Sys) (taskId : Nat) : Option Rat :=
  (sys.db.tasks.find? (fun r => r.id == taskId)).bind (fun r =>
    r.resultsJson.bind (fun s =>
      match jsonParse s with
      | .agg a => some a.successRate
      | .err _ => none))

/-- The `options` sub-object of a raw `/api/tasks/execute` request body. -/
structure OptionsBody where
  timeout : Option Nat := none
  maxConcurrent : Option Nat := none
  cwd : Option String := none
  deriving Repr, DecidableEq

/-- A raw `/api/tasks/execute` request body as seen by Joi: every field may
be absent. -/
structure ExecuteBody where
  name : Option String := none
  command : Option String := none
  serverIds : Option (List Int) := none
  options : Option OptionsBody := none
  deriving Repr, DecidableEq

/-- The `options` part of `executeTaskSchema`: `timeout` in
[1000, 3600000] when present, `maxConcurrent` in [1, 20] with Joi default 5,
`cwd` passed through. -/
def validateOptionsBody (o : OptionsBody) : Except String ExecOptions :=
  if o.timeout.any (fun t => decide (t < 1000) || decide (3600000 < t)) then
    .error "timeout must fall within the allowed range"
  else if o.maxConcurrent.any (fun m => decide (m < 1) || decide (20 < m)) then
    .error "maxConcurrent must fall within the allowed range"
  else
    .ok { timeout := o.timeout, cwd := o.cwd,
          maxConcurrent := some (o.maxConcurrent.getD 5) }

/-- The Joi `executeTaskSchema` (routes/tasks.js lines 171-180): `name`
required with length 1..255, `command` a required non-empty string,
`serverIds` a required array of integers with at least one element,
`options` optional. -/
def validateExecuteBody (b : ExecuteBody) : Except String TaskData :=
  match b.name with
  | none => .error "name is required"
  | some nm =>
    if nm.length < 1 then .error "name is not allowed to be empty"
    else if 255 < nm.length then .error "name length must be at most 255"
    else
      match b.command with
      | none => .error "command is required"
      | some cmd =>
        if cmd.length < 1 then .error "command is not allowed to be empty"
        else
          match b.serverIds with
          | none => .error "serverIds is required"
          | some ids =>
            if ids.length < 1 then .error "serverIds must contain at least 1 items"
            else
              match b.options with
              | none => .ok { name := nm, command := cmd, serverIds := ids }
              | some o =>
                match validateOptionsBody o with
                | .error e => .error e
                | .ok opts =>
                  .ok { name := nm, command := cmd, serverIds := ids,
                        options := opts }

/-- The HTTP response of the `/api/tasks/execute` route: status code, the
`success` flag, and the relevant payload fields (`data.taskId`,
`data.status`). -/
structure HttpResponse where
  status : Nat
  ok : Bool
  message : Option String := none
  errorMsg : Option String := none
  taskId : Option Nat := none
  dataStatus : Option String := none
  deriving Repr, DecidableEq

/-- `router.post('/execute')` (routes/tasks.js lines 187-214): validate the
body against the Joi schema and reject with 400 before any task exists;
otherwise `await taskManager.executeTask(value)` — which runs the whole
fan-out to its terminal state — and only then answer 202 with
`message: 'Task execution started'` and `data.status: 'running'`. -/
def postExecute (env : SshEnv) (sys : Sys) (body : ExecuteBody) :
    HttpResponse × Sys :=
  match validateExecuteBody body with
  | .error msg => ({ status := 400, ok := false, errorMsg := some msg }, sys)
  | .ok td =>
    let fin := executeTaskFinal env sys td
    let tid :=
      match executeTaskReturn env sys td with
      | some (.ok t _ _ _) => t
      | some (.err t _) => t
      | none => 0
    ({ status := 202, ok := true, message := some "Task execution started",
       taskId := some tid, dataStatus := some "running" }, fin)

/-- The events published by a list of operations, in publication order. -/
def eventsOf (ops : List Op) : List Event :=
  ops.filterMap (fun op =>
    match op with
    | .emit e => some e
    | _ => none)

/-- A one-host system whose single host authenticates by password and whose
remote command exits 0 under `envKeyOk`. -/
def sysW : Sys := { db := { servers := [srvPw] } }

/-- A valid submission against `sysW`. -/
def tdW : TaskData := { name := "t", command := "uptime", serverIds := [1] }

/-- The raw request body corresponding to `tdW`. -/
def bodyW : ExecuteBody :=
  { name := some "t", command := some "uptime", serverIds := some [1] }

/-- A one-host system whose single host has no authentication method, so its
dispatch produces exactly one failed result. -/
def sysZero : Sys := { db := { servers := [srvNoAuth] } }

/-- A valid submission against `sysZero`. -/
def tdZero : TaskData := { name := "t", command := "uptime", serverIds := [3] }

/-- A request body with an empty command string. -/
def bodyEmptyCmd : ExecuteBody :=
  { name := some "x", command := some "", serverIds := some [1] }

/-- A persisted pending task row used to witness C10. -/
def rowFix : TaskRow :=
  { id := 1, name := "t", command := "uptime",
    serverIdsJson := jsonStringify [1], createdAt := 1 }

/-- A store holding exactly `rowFix`, with an empty running registry. -/
def sysFix : Sys := { db := { servers := [], tasks := [rowFix], nextTaskId := 2 } }

/-- The effective batch width is always at least 1. -/
theorem effectiveMaxConcurrent_pos (options : ExecOptions) :
    1 ≤ effectiveMaxConcurrent options := by
  unfold effectiveMaxConcurrent natOr
  match options.maxConcurrent with
  | none => decide
  | some 0 => decide
  | some (n + 1) => exact Nat.succ_le_succ (Nat.zero_le n)

/-- The batch loop with enough fuel and a positive batch width produces the
pointwise map of `executeCommand` over the input list, in input order. -/
theorem bulkGo_eq_map (env : SshEnv) (command : String) (options : ExecOptions)
    (k : Nat) (hk : 1 ≤ k) :
    ∀ (fuel : Nat) (servers : List Server), servers.length ≤ fuel →
      bulkGo env command options k fuel servers
        = servers.map (fun s => executeCommand env s command options) := by
  intro fuel
  induction fuel with
  | zero =>
    intro servers h
    match servers with
    | [] => rfl
    | s :: rest => exact absurd h (by simp)
  | succ n ih =>
    intro servers h
    match servers with
    | [] => rfl
    | s :: rest =>
      have hlen : (rest.drop (k - 1)).length ≤ n := by
        have h1 : rest.length ≤ n := by
          simpa using Nat.le_of_succ_le_succ h
        calc (rest.drop (k - 1)).length ≤ rest.length := by
              simp [List.length_drop]
          _ ≤ n := h1
      show ((s :: rest).take k).map (fun x => executeCommand env x command options)
            ++ bulkGo env command options k n (rest.drop (k - 1))
          = (s :: rest).map (fun x => executeCommand env x command options)
      rw [ih (rest.drop (k - 1)) hlen]
      rw [← List.map_append]
      congr 1
      obtain ⟨m, rfl⟩ : ∃ m, k = m + 1 := ⟨k - 1, (Nat.succ_pred_eq_of_pos hk).symm⟩
      simp [List.take_cons, List.take_append_drop]

/-- `executeBulkCommand` equals the pointwise map of the remote executor over
the host list, for every options object. -/
theorem executeBulkCommand_eq_map (env : SshEnv) (servers : List Server)
    (command : String) (options : ExecOptions) :
    executeBulkCommand env servers command options
      = servers.map (fun s => executeCommand env s command options) :=
  bulkGo_eq_map env command options (effectiveMaxConcurrent options)
    (effectiveMaxConcurrent_pos options) servers.length servers (Nat.le_refl _)

/-- C4: for every host descriptor and command, `SSHManager.executeCommand`
never raises to its caller (it is total, of result type `ExecResult`): if the
session body raised with message `e` — authentication failure, connection
error, or transport failure of the remote run — the returned result folds it
into `success = false`, sentinel `code = -1` and `stderr = e`; if the body
resolved, `success` is exactly "remote exit code 0" and the exit code and
stderr are passed through. -/
theorem claim_C4_executeCommand_never_raises (env : SshEnv) (server : Server)
    (command : String) (options : ExecOptions) :
    (∀ e, executeCommandBody env server command options = .error e →
      executeCommand env server command options =
        { success := false, stdout := "", stderr := e, code := -1,
          executionTime := env.elapsed server command,
          server := serverRefOf server, errorMsg := some e }) ∧
    (∀ out, executeCommandBody env server command options = .ok out →
      (executeCommand env server command options).success = (out.code == 0) ∧
      (executeCommand env server command options).code = out.code ∧
      (executeCommand env server command options).stderr = out.stderr ∧
      (executeCommand env server command options).stdout = out.stdout) := by
  constructor
  · intro e he
    simp [executeCommand, he]
  · intro out hout
    simp [executeCommand, hout]

/-- Witness for C4: on a concrete host whose connection is refused, the call
returns (rather than raising) the folded failure result with sentinel exit
code -1 and the error text in stderr. -/
theorem claim_C4_witness :
    executeCommand envConnFail srvPw "uptime" {} =
      { success := false, stdout := "", stderr := "connect ECONNREFUSED 10.0.0.1:22",
        code := -1, executionTime := 7,
        server := { id := 1, name := "web1", ip := "10.0.0.1" },
        errorMsg := some "connect ECONNREFUSED 10.0.0.1:22" } :=
  (claim_C4_executeCommand_never_raises envConnFail srvPw "uptime" {}).1
    "connect ECONNREFUSED 10.0.0.1:22" (by rfl)

/-- Every result reports the host it was produced for, on both the success
and the failure path of `executeCommand`. -/
theorem executeCommand_server (env : SshEnv) (server : Server) (command : String)
    (options : ExecOptions) :
    (executeCommand env server command options).server = serverRefOf server := by
  unfold executeCommand
  split <;> rfl

/-- C5: for every host list and every options object (hence every effective
`maxConcurrent = k ≥ 1`, since `options.maxConcurrent || 5` is always
positive), the bulk dispatcher returns exactly one `ExecutionResult` per
input host: the result count equals the host count, the sequence of reported
host ids is exactly the input id sequence (so every host appears exactly
once, with no omissions and no duplicates, including hosts whose connection
failed), and the result at each position is precisely `executeCommand` of the
host at that position — so no host's failure can prevent any other host, in
the same batch or a later one, from producing its own result. -/
theorem claim_C5_bulk_one_result_per_host (env : SshEnv) (servers : List Server)
    (command : String) (options : ExecOptions) :
    (executeBulkCommand env servers command options).length = servers.length ∧
    (executeBulkCommand env servers command options).map (fun r => r.server.id)
      = servers.map (fun s => s.id) ∧
    ∀ i : Nat, (executeBulkCommand env servers command options).get? i
      = (servers.get? i).map (fun s => executeCommand env s command options) := by
  rw [executeBulkCommand_eq_map]
  refine ⟨by simp, ?_, ?_⟩
  · rw [List.map_map]
    apply List.map_congr_left
    intro s _
    simp [Function.comp, executeCommand_server, serverRefOf]
  · intro i
    simp [List.get?_map]

/-- C8, precedence and auth-unavailable behaviour of the remote executor.
Part 1: when both private-key material (a truthy `private_key_path` whose
file exists) and a password are available, `createConnection` selects
private-key authentication, with the key-file contents as material.
Part 2: when neither is configured, `executeCommand` returns the
authentication-unavailable failure (success = false, sentinel exit code -1)
whose value is the same for every transport oracle with the same timing —
i.e. the connection attempt (`env.connect`) and the remote run
(`env.runCommand`) are never consulted. -/
theorem claim_C8_auth_precedence (env : SshEnv) (server : Server)
    (command : String) (options : ExecOptions) :
    (strTruthy server.privateKeyPath = true →
     env.keyFileExists (keyPathOf server) = true →
     strTruthy server.password = true →
      chooseAuth env server
        = .ok (.privateKey (env.readKeyFile (keyPathOf server)))) ∧
    (strTruthy server.privateKeyPath = false →
     strTruthy server.password = false →
      executeCommand env server command options =
        { success := false, stdout := "", stderr := authUnavailableMsg server,
          code := -1, executionTime := env.elapsed server command,
          server := serverRefOf server,
          errorMsg := some (authUnavailableMsg server) } ∧
      ∀ env2 : SshEnv, env2.elapsed = env.elapsed →
        executeCommand env2 server command options
          = executeCommand env server command options) := by
  constructor
  · intro hkey hexists _
    simp [chooseAuth, hkey, hexists, authUnavailableMsg]
  · intro hkey hpw
    have hbody : ∀ env3 : SshEnv, executeCommandBody env3 server command options
        = .error (authUnavailableMsg server) := by
      intro env3
      simp [executeCommandBody, createConnection, chooseAuth, hkey, hpw,
        authUnavailableMsg]
    constructor
    · simp [executeCommand, hbody env]
    · intro env2 helapsed
      simp [executeCommand, hbody env, hbody env2, helapsed]

/-- Witness for C8: on a concrete host with both methods, the private key is
selected; on a concrete host with neither, the call yields the
authentication-unavailable result with sentinel exit code -1. -/
theorem claim_C8_witness :
    chooseAuth envKeyOk srvBoth = .ok (.privateKey "KEYMATERIAL") ∧
    executeCommand envKeyOk srvNoAuth "uptime" {} =
      { success := false, stdout := "",
        stderr := "No authentication method available for server bare",
        code := -1, executionTime := 3,
        server := { id := 3, name := "bare", ip := "10.0.0.3" },
        errorMsg := some "No authentication method available for server bare" } := by
  constructor
  · exact (claim_C8_auth_precedence envKeyOk srvBoth "uptime" {}).1
      (by decide) (by decide) (by decide)
  · exact ((claim_C8_auth_precedence envKeyOk srvNoAuth "uptime" {}).2
      (by decide) (by decide)).1

/-- `updateTaskStatus` never changes a row's id. -/
theorem updTaskRow_id (clock id : Nat) (status : String)
    (results : Option TaskResults) (r : TaskRow) :
    (updTaskRow clock id status results r).id = r.id := by
  unfold updTaskRow
  split <;> rfl

/-- Row lookup commutes with a status update, because the update preserves
ids. -/
theorem find?_map_updTaskRow (clock id : Nat) (status : String)
    (results : Option TaskResults) (tid : Nat) :
    ∀ l : List TaskRow,
      (l.map (updTaskRow clock id status results)).find? (fun r => r.id == tid)
        = (l.find? (fun r => r.id == tid)).map (updTaskRow clock id status results) := by
  intro l
  induction l with
  | nil => rfl
  | cons a t ih =>
    simp only [List.map_cons, List.find?]
    rw [updTaskRow_id]
    cases a.id == tid
    · simpa using ih
    · simp

/-- A fresh id is found in no existing row. -/
theorem find?_none_of_lt (n : Nat) :
    ∀ l : List TaskRow, (∀ r ∈ l, r.id < n) →
      l.find? (fun r => r.id == n) = none := by
  intro l
  induction l with
  | nil => intro _; rfl
  | cons a t ih =>
    intro h
    have ha : (a.id == n) = false := by
      simp [Nat.ne_of_lt (h a (List.mem_cons_self a t))]
    simp only [List.find?, ha]
    exact ih (fun r hr => h r (List.mem_cons_of_mem a hr))

/-- Lookup skips a prefix in which nothing matches. -/
theorem find?_append_of_none {p : TaskRow → Bool} (l1 l2 : List TaskRow)
    (h : l1.find? p = none) : (l1 ++ l2).find? p = l2.find? p := by
  induction l1 with
  | nil => rfl
  | cons a t ih =>
    cases hp : p a
    · simp only [List.cons_append, List.find?, hp]
      apply ih
      simpa [List.find?, hp] using h
    · exfalso
      simp [List.find?, hp] at h

/-- After `Map.delete`, no entry with the deleted key remains. -/
theorem any_filter_beq (tid : Nat) :
    ∀ l : List (Nat × RunInfo),
      (l.filter (fun p => !(p.1 == tid))).any (fun p => p.1 == tid) = false := by
  intro l
  induction l with
  | nil => rfl
  | cons a t ih =>
    cases h : a.1 == tid
    · simp [List.filter_cons, h, ih]
    · simp [List.filter_cons, h, ih]

/-- The per-result loop touches only the logs, the host statuses and the
event stream: the task table and the running registry are untouched. -/
theorem foldl_progress_frame (tid : Nat) (cmd : String) :
    ∀ (results : List ExecResult) (sys : Sys),
      (((results.map (progressOpsFor tid cmd)).join.foldl doOp sys).db.tasks
          = sys.db.tasks)
      ∧ (((results.map (progressOpsFor tid cmd)).join.foldl doOp sys).running
          = sys.running) := by
  intro results
  induction results with
  | nil => intro sys; exact ⟨rfl, rfl⟩
  | cons r rs ih =>
    intro sys
    simp only [List.map_cons, List.join_cons, List.foldl_append]
    constructor
    · exact ((ih _).1).trans rfl
    · exact ((ih _).2).trans rfl

/-- `eventsOf` distributes over concatenation. -/
theorem eventsOf_append (l1 l2 : List Op) :
    eventsOf (l1 ++ l2) = eventsOf l1 ++ eventsOf l2 :=
  List.filterMap_append l1 l2 _

/-- The per-result loop publishes exactly one `taskProgress` event per
result, in result order. -/
theorem eventsOf_progress_join (tid : Nat) (cmd : String) :
    ∀ results : List ExecResult,
      eventsOf ((results.map (progressOpsFor tid cmd)).join)
        = results.map (progressEventOf tid) := by
  intro results
  induction results with
  | nil => rfl
  | cons r rs ih =>
    simp only [List.map_cons, List.join_cons, eventsOf_append, ih]
    rfl

/-- The success rate is never negative. -/
theorem successRateOf_nonneg (results : List ExecResult) :
    0 ≤ successRateOf results := by
  unfold successRateOf
  have h1 : (0 : Rat) ≤ (successCountOf results : Rat) := by positivity
  have h2 : (0 : Rat) ≤ (results.length : Rat) := by positivity
  have := div_nonneg h1 h2
  linarith

/-- For a non-empty result list the success rate is at most 100. -/
theorem successRateOf_le_100 (results : List ExecResult) (h : results ≠ []) :
    successRateOf results ≤ 100 := by
  unfold successRateOf successCountOf
  have hlen : 0 < results.length := List.length_pos.mpr h
  have hle : (results.filter (fun r => r.success)).length ≤ results.length :=
    List.length_filter_le _ _
  have hlt : (0 : Rat) < (results.length : Rat) := by exact_mod_cast hlen
  have hc : ((results.filter (fun r => r.success)).length : Rat)
      ≤ (results.length : Rat) := by exact_mod_cast hle
  have hdiv : ((results.filter (fun r => r.success)).length : Rat)
      / (results.length : Rat) ≤ 1 := (div_le_one hlt).mpr hc
  calc ((results.filter (fun r => r.success)).length : Rat)
        / (results.length : Rat) * 100 ≤ 1 * 100 := by
          apply mul_le_mul_of_nonneg_right hdiv
          norm_num
    _ = 100 := by norm_num

/-- The terminal status string is `completed` exactly when the success rate
is exactly 100. -/
theorem finalStatusOf_completed_iff (results : List ExecResult) :
    finalStatusOf results = "completed" ↔ successRateOf results = 100 := by
  unfold finalStatusOf
  split
  · simp [*]
  · constructor
    · intro h
      exact absurd h (by decide)
    · intro h
      exact absurd h (by assumption)

/-- For a non-empty result list the terminal status string is `partial`
exactly when the success rate is strictly below 100. -/
theorem finalStatusOf_partial_iff (results : List ExecResult) (h : results ≠ []) :
    finalStatusOf results = "partial" ↔ successRateOf results < 100 := by
  unfold finalStatusOf
  split
  · constructor
    · intro hc
      exact absurd hc (by decide)
    · intro hlt
      exact absurd (by assumption) (ne_of_lt hlt)
  · constructor
    · intro _
      exact lt_of_le_of_ne (successRateOf_le_100 results h) (by assumption)
    · intro _
      rfl

/-- The final state of a dispatch that found at least one valid host: the
persisted row carries the computed terminal status and aggregate, a set
completion timestamp, decodes back to the submitted ids, and the task is no
longer registered as running. -/
theorem executeTask_success_state (env : SshEnv) (sys : Sys) (td : TaskData)
    (hvs : validServersOf sys.db td.serverIds ≠ [])
    (hWF : ∀ r ∈ sys.db.tasks, r.id < sys.db.nextTaskId) :
    persistedStatus (executeTaskFinal env sys td) sys.db.nextTaskId
      = some (finalStatusOf (taskResultsOf env sys td)) ∧
    persistedRate (executeTaskFinal env sys td) sys.db.nextTaskId
      = some (successRateOf (taskResultsOf env sys td)) ∧
    (persistedCompletedAt (executeTaskFinal env sys td) sys.db.nextTaskId).map
        (fun x => x.isSome) = some true ∧
    (getTaskStatus (executeTaskFinal env sys td) sys.db.nextTaskId).map
        (fun v => (v.serverIds, v.isRunning, v.name, v.command))
      = some (td.serverIds, false, td.name, td.command) ∧
    (executeTaskFinal env sys td).running.any
      (fun p => p.1 == sys.db.nextTaskId) = false := by
  have hcond : ((validServersOf sys.db td.serverIds).length == 0) = false := by
    cases hvl : validServersOf sys.db td.serverIds with
    | nil => exact absurd hvl hvs
    | cons a l => simp
  unfold executeTaskFinal runFinal executeTaskOps
  simp only [hcond, Bool.false_eq_true, if_false, List.append_eq, List.nil_append,
    List.append_assoc, List.foldl_append, List.foldl, doOp, dbUpdateTaskStatus]
  refine ⟨?_, ?_, ?_, ?_, ?_⟩
  · unfold persistedStatus
    rw [(foldl_progress_frame sys.db.nextTaskId td.command
      (taskResultsOf env sys td) _).1]
    rw [find?_map_updTaskRow, find?_map_updTaskRow,
      find?_append_of_none _ _ (find?_none_of_lt _ _ hWF)]
    simp [List.find?, updTaskRow, jsonParse, jsonStringify]
  · unfold persistedRate
    rw [(foldl_progress_frame sys.db.nextTaskId td.command
      (taskResultsOf env sys td) _).1]
    rw [find?_map_updTaskRow, find?_map_updTaskRow,
      find?_append_of_none _ _ (find?_none_of_lt _ _ hWF)]
    simp [List.find?, updTaskRow, jsonParse, jsonStringify]
  · unfold persistedCompletedAt
    rw [(foldl_progress_frame sys.db.nextTaskId td.command
      (taskResultsOf env sys td) _).1]
    rw [find?_map_updTaskRow, find?_map_updTaskRow,
      find?_append_of_none _ _ (find?_none_of_lt _ _ hWF)]
    simp [List.find?, updTaskRow, jsonParse, jsonStringify]
  · unfold getTaskStatus
    rw [(foldl_progress_frame sys.db.nextTaskId td.command
      (taskResultsOf env sys td) _).1]
    rw [(foldl_progress_frame sys.db.nextTaskId td.command
      (taskResultsOf env sys td) _).2]
    rw [find?_map_updTaskRow, find?_map_updTaskRow,
      find?_append_of_none _ _ (find?_none_of_lt _ _ hWF)]
    rw [any_filter_beq]
    simp [List.find?, updTaskRow, jsonParse, jsonStringify]
  · rw [(foldl_progress_frame sys.db.nextTaskId td.command
      (taskResultsOf env sys td) _).2]
    exact any_filter_beq _ _

/-- The final state of a dispatch that resolved zero valid hosts: the row is
`failed` with no aggregate, the completion timestamp is set, and the task is
no longer registered as running. -/
theorem executeTask_failure_state (env : SshEnv) (sys : Sys) (td : TaskData)
    (hvs : validServersOf sys.db td.serverIds = [])
    (hWF : ∀ r ∈ sys.db.tasks, r.id < sys.db.nextTaskId) :
    persistedStatus (executeTaskFinal env sys td) sys.db.nextTaskId
      = some "failed" ∧
    persistedRate (executeTaskFinal env sys td) sys.db.nextTaskId = none ∧
    (persistedCompletedAt (executeTaskFinal env sys td) sys.db.nextTaskId).map
        (fun x => x.isSome) = some true ∧
    (getTaskStatus (executeTaskFinal env sys td) sys.db.nextTaskId).map
        (fun v => (v.serverIds, v.isRunning, v.status))
      = some (td.serverIds, false, "failed") ∧
    (executeTaskFinal env sys td).running.any
      (fun p => p.1 == sys.db.nextTaskId) = false := by
  have hcond : ((validServersOf sys.db td.serverIds).length == 0) = true := by
    simp [hvs]
  unfold executeTaskFinal runFinal executeTaskOps
  simp only [hcond, if_true, List.append_eq, List.nil_append,
    List.append_assoc, List.foldl_append, List.foldl, doOp, dbUpdateTaskStatus]
  refine ⟨?_, ?_, ?_, ?_, ?_⟩
  · unfold persistedStatus
    rw [find?_map_updTaskRow,
      find?_append_of_none _ _ (find?_none_of_lt _ _ hWF)]
    simp [List.find?, updTaskRow, jsonParse, jsonStringify]
  · unfold persistedRate
    rw [find?_map_updTaskRow,
      find?_append_of_none _ _ (find?_none_of_lt _ _ hWF)]
    simp [List.find?, updTaskRow, jsonParse, jsonStringify]
  · unfold persistedCompletedAt
    rw [find?_map_updTaskRow,
      find?_append_of_none _ _ (find?_none_of_lt _ _ hWF)]
    simp [List.find?, updTaskRow, jsonParse, jsonStringify]
  · unfold getTaskStatus
    rw [find?_map_updTaskRow,
      find?_append_of_none _ _ (find?_none_of_lt _ _ hWF)]
    rw [any_filter_beq]
    simp [List.find?, updTaskRow, jsonParse, jsonStringify]
  · exact any_filter_beq _ _

/-- The state immediately after the second operation of every `executeTask`
run: the task id is already in the running registry while its persisted
status is still `pending`. -/
theorem executeTask_trace_pending (env : SshEnv) (sys : Sys) (td : TaskData)
    (hWF : ∀ r ∈ sys.db.tasks, r.id < sys.db.nextTaskId) :
    ((executeTaskTrace env sys td).get? 1).map (fun p =>
        (p.2.running.any (fun q => q.1 == sys.db.nextTaskId),
         persistedStatus p.2 sys.db.nextTaskId))
      = some (true, some "pending") := by
  unfold executeTaskTrace executeTaskOps
  simp only [List.cons_append, List.nil_append, runTrace, List.get?]
  simp only [Option.map]
  simp only [doOp]
  simp only [Option.some.injEq, Prod.mk.injEq]
  constructor
  · simp [List.any_append]
  · simp [persistedStatus,
      find?_append_of_none _ _ (find?_none_of_lt _ _ hWF), List.find?]

/-- The single successful result of the dispatch in `sysW`. -/
theorem resultsW : taskResultsOf envKeyOk sysW tdW
    = [{ success := true, stdout := "ok", stderr := "", code := 0,
         executionTime := 3,
         server := { id := 1, name := "web1", ip := "10.0.0.1" } }] := rfl

/-- The dispatch in `sysW` has a 100 per cent success rate. -/
theorem rateW : successRateOf (taskResultsOf envKeyOk sysW tdW) = 100 := by
  rw [resultsW]
  unfold successRateOf successCountOf
  norm_num

/-- The dispatch in `sysW` reaches the `completed` status. -/
theorem fstatW : finalStatusOf (taskResultsOf envKeyOk sysW tdW) = "completed" := by
  unfold finalStatusOf
  rw [if_pos rateW]

/-- The single failed result of the dispatch in `sysZero`. -/
theorem resultsZero : taskResultsOf envKeyOk sysZero tdZero
    = [{ success := false, stdout := "",
         stderr := "No authentication method available for server bare",
         code := -1, executionTime := 3,
         server := { id := 3, name := "bare", ip := "10.0.0.3" },
         errorMsg := some "No authentication method available for server bare" }]
    := rfl

/-- The dispatch in `sysZero` has a zero success rate. -/
theorem rateZero : successRateOf (taskResultsOf envKeyOk sysZero tdZero) = 0 := by
  rw [resultsZero]
  unfold successRateOf successCountOf
  norm_num

/-- The dispatch in `sysZero` nevertheless reaches the `partial` status. -/
theorem fstatZero : finalStatusOf (taskResultsOf envKeyOk sysZero tdZero)
    = "partial" := by
  unfold finalStatusOf
  rw [if_neg]
  rw [rateZero]
  norm_num

/-- C1 counterexample: a task whose only host fails (here: no authentication
method configured) produces one `ExecutionResult`, a persisted success rate
of 0, and terminal state `partial` — so `state == Partial` holds while
`0 < successRatePercent` fails, refuting the claimed biconditional. -/
theorem claim_C1_counterexample :
    persistedStatus (executeTaskFinal envKeyOk sysZero tdZero) 1 = some "partial" ∧
    persistedRate (executeTaskFinal envKeyOk sysZero tdZero) 1 = some 0 := by
  have h := executeTask_success_state envKeyOk sysZero tdZero (by decide) (by decide)
  constructor
  · have h1 := h.1
    rw [fstatZero] at h1
    exact h1
  · have h2 := h.2.1
    rw [rateZero] at h2
    exact h2

/-- C1 amended: for every task whose dispatch produces at least one
`ExecutionResult`, the persisted terminal state is `completed` iff the
persisted `successRatePercent` is 100, and `partial` iff it is strictly below
100 (the rate 0 — every host failed — also yields `partial`, not `Failed`);
the rate always lies in [0, 100]. -/
theorem claim_C1_amended (env : SshEnv) (sys : Sys) (td : TaskData)
    (hvs : validServersOf sys.db td.serverIds ≠ [])
    (hWF : ∀ r ∈ sys.db.tasks, r.id < sys.db.nextTaskId) :
    persistedStatus (executeTaskFinal env sys td) sys.db.nextTaskId
      = some (finalStatusOf (taskResultsOf env sys td)) ∧
    persistedRate (executeTaskFinal env sys td) sys.db.nextTaskId
      = some (successRateOf (taskResultsOf env sys td)) ∧
    (finalStatusOf (taskResultsOf env sys td) = "completed"
      ↔ successRateOf (taskResultsOf env sys td) = 100) ∧
    (finalStatusOf (taskResultsOf env sys td) = "partial"
      ↔ successRateOf (taskResultsOf env sys td) < 100) ∧
    0 ≤ successRateOf (taskResultsOf env sys td) := by
  have h := executeTask_success_state env sys td hvs hWF
  have hne : taskResultsOf env sys td ≠ [] := by
    unfold taskResultsOf
    rw [executeBulkCommand_eq_map]
    intro hx
    exact hvs (List.map_eq_nil.mp hx)
  exact ⟨h.1, h.2.1, finalStatusOf_completed_iff _,
    finalStatusOf_partial_iff _ hne, successRateOf_nonneg _⟩

/-- Witness for the amended C1: the all-successful one-host task persists
status `completed` with rate 100. -/
theorem claim_C1_amended_witness :
    persistedStatus (executeTaskFinal envKeyOk sysW tdW) 1 = some "completed" ∧
    persistedRate (executeTaskFinal envKeyOk sysW tdW) 1 = some 100 := by
  have h := claim_C1_amended envKeyOk sysW tdW (by decide) (by decide)
  constructor
  · have h1 := h.1
    rw [fstatW] at h1
    exact h1
  · have h2 := h.2.1
    rw [rateW] at h2
    exact h2

/-- C2, evaluated at a concrete accepted submission: the route does answer
202 with `data.status = 'running'` and `message = 'Task execution started'`,
but only after `executeTask` has already driven the task to its terminal
state — in the state the route hands back, the task is already `completed`
and no longer registered as running, so the call did not return right after
persisting the Pending record and registering the task. -/
theorem claim_C2_resolves_after_terminal :
    (postExecute envKeyOk sysW bodyW).1.status = 202 ∧
    (postExecute envKeyOk sysW bodyW).1.dataStatus = some "running" ∧
    persistedStatus (postExecute envKeyOk sysW bodyW).2 1 = some "completed" ∧
    (postExecute envKeyOk sysW bodyW).2.running.any (fun p => p.1 == 1)
      = false := by
  have hv : validateExecuteBody bodyW = .ok tdW := rfl
  have hfin : (postExecute envKeyOk sysW bodyW).2
      = executeTaskFinal envKeyOk sysW tdW := by
    simp [postExecute, hv]
  have h := executeTask_success_state envKeyOk sysW tdW (by decide) (by decide)
  refine ⟨?_, ?_, ?_, ?_⟩
  · simp [postExecute, hv]
  · simp [postExecute, hv]
  · rw [hfin]
    have h1 := h.1
    rw [fstatW] at h1
    exact h1
  · rw [hfin]
    exact h.2.2.2.2

/-- C3, evaluated at a concrete task: the persisted `completed_at` column is
already set (to logical time 4) by the non-terminal transition to `running`
— the state right after that write has status `running` and a non-null
`completed_at` — and is then overwritten (to logical time 8) by the terminal
transition, so it is written twice, not exactly once. -/
theorem claim_C3_completedAt_written_at_running :
    ((executeTaskTrace envKeyOk sysW tdW).get? 3).map
        (fun p => persistedStatus p.2 1) = some (some "running") ∧
    ((executeTaskTrace envKeyOk sysW tdW).get? 3).map
        (fun p => persistedCompletedAt p.2 1) = some (some (some 4)) ∧
    persistedCompletedAt (executeTaskFinal envKeyOk sysW tdW) 1
      = some (some 8) := by
  refine ⟨by decide, by decide, by decide⟩

/-- C6 counterexample: right after registration (trace position 1) the
running registry already contains the task id while the persisted state is
still `pending`, not `Running` — refuting the claimed "registry holds the id
iff the state is Running" at that lifecycle point. -/
theorem claim_C6_counterexample :
    ((executeTaskTrace envKeyOk sysW tdW).get? 1).map (fun p =>
        (p.2.running.any (fun q => q.1 == 1), persistedStatus p.2 1))
      = some (true, some "pending") := by decide

/-- C6 amended: the registry holds the task id from registration — which
happens while the persisted state is still `pending` — until one operation
after the terminal-state persist; when `executeTask` resolves, the id is no
longer registered and the persisted state is terminal. -/
theorem claim_C6_amended (env : SshEnv) (sys : Sys) (td : TaskData)
    (hWF : ∀ r ∈ sys.db.tasks, r.id < sys.db.nextTaskId) :
    ((executeTaskTrace env sys td).get? 1).map (fun p =>
        (p.2.running.any (fun q => q.1 == sys.db.nextTaskId),
         persistedStatus p.2 sys.db.nextTaskId)) = some (true, some "pending") ∧
    (executeTaskFinal env sys td).running.any
        (fun p => p.1 == sys.db.nextTaskId) = false ∧
    ∃ st, persistedStatus (executeTaskFinal env sys td) sys.db.nextTaskId
        = some st ∧ (st = "completed" ∨ st = "partial" ∨ st = "failed") := by
  refine ⟨executeTask_trace_pending env sys td hWF, ?_, ?_⟩
  · by_cases hvs : validServersOf sys.db td.serverIds = []
    · exact (executeTask_failure_state env sys td hvs hWF).2.2.2.2
    · exact (executeTask_success_state env sys td hvs hWF).2.2.2.2
  · by_cases hvs : validServersOf sys.db td.serverIds = []
    · exact ⟨"failed", (executeTask_failure_state env sys td hvs hWF).1,
        Or.inr (Or.inr rfl)⟩
    · refine ⟨finalStatusOf (taskResultsOf env sys td),
        (executeTask_success_state env sys td hvs hWF).1, ?_⟩
      unfold finalStatusOf
      split
      · exact Or.inl rfl
      · exact Or.inr (Or.inl rfl)

/-- Witness for the amended C6: the concrete task of `sysW` is no longer in
the registry when `executeTask` resolves. -/
theorem claim_C6_amended_witness :
    (executeTaskFinal envKeyOk sysW tdW).running.any (fun p => p.1 == 1)
      = false :=
  (claim_C6_amended envKeyOk sysW tdW (by decide)).2.1

/-- C7: a submission whose command string is empty or whose target list is
empty is rejected by the Joi schema with a 400 validation error before
`executeTask` is invoked: the system state is returned unchanged, so no task
record — in particular no `Failed` task — is ever created. -/
theorem claim_C7_validation_rejects (env : SshEnv) (sys : Sys)
    (body : ExecuteBody)
    (h : body.command = some "" ∨ body.serverIds = some ([] : List Int)) :
    (∃ msg, validateExecuteBody body = .error msg) ∧
    (postExecute env sys body).1.status = 400 ∧
    (postExecute env sys body).2 = sys := by
  obtain ⟨bn, bc, bs, bo⟩ := body
  have hval : ∃ msg,
      validateExecuteBody ⟨bn, bc, bs, bo⟩ = .error msg := by
    rcases h with h | h
    · simp only at h
      subst h
      unfold validateExecuteBody
      cases bn with
      | none => exact ⟨_, rfl⟩
      | some nm =>
        dsimp only
        by_cases h1 : nm.length < 1
        · rw [if_pos h1]
          exact ⟨_, rfl⟩
        · rw [if_neg h1]
          by_cases h2 : 255 < nm.length
          · rw [if_pos h2]
            exact ⟨_, rfl⟩
          · rw [if_neg h2]
            exact ⟨_, rfl⟩
    · simp only at h
      subst h
      unfold validateExecuteBody
      cases bn with
      | none => exact ⟨_, rfl⟩
      | some nm =>
        dsimp only
        by_cases h1 : nm.length < 1
        · rw [if_pos h1]
          exact ⟨_, rfl⟩
        · rw [if_neg h1]
          by_cases h2 : 255 < nm.length
          · rw [if_pos h2]
            exact ⟨_, rfl⟩
          · rw [if_neg h2]
            cases bc with
            | none => exact ⟨_, rfl⟩
            | some cmd =>
              dsimp only
              by_cases h3 : cmd.length < 1
              · rw [if_pos h3]
                exact ⟨_, rfl⟩
              · rw [if_neg h3]
                exact ⟨_, rfl⟩
  obtain ⟨msg, hmsg⟩ := hval
  exact ⟨⟨msg, hmsg⟩, by simp [postExecute, hmsg], by simp [postExecute, hmsg]⟩

/-- Witness for C7: the concrete empty-command body is answered with 400 and
leaves the store untouched. -/
theorem claim_C7_witness :
    (postExecute envKeyOk sysW bodyEmptyCmd).1.status = 400 ∧
    (postExecute envKeyOk sysW bodyEmptyCmd).2 = sysW :=
  ⟨(claim_C7_validation_rejects envKeyOk sysW bodyEmptyCmd (Or.inl rfl)).2.1,
   (claim_C7_validation_rejects envKeyOk sysW bodyEmptyCmd (Or.inl rfl)).2.2⟩

/-- C9: within one task the published event sequence is exactly one
`taskStarted`, then one `taskProgress` per dispatched host in dispatch order,
then the single terminal `taskCompleted`/`taskFailed` event: `taskStarted`
precedes every `taskProgress`, which precede the terminal event.  The j-th
progress event (0-based) reports the host at dispatch position j, which
belongs to batch j / maxConcurrent; since the events are published in
increasing j, every batch-N progress event precedes every batch-(N+1) one
(the batch index j / k is monotone in j). -/
theorem claim_C9_event_ordering (env : SshEnv) (sys : Sys) (td : TaskData) :
    (∃ last : Event,
      eventsOf (executeTaskOps env sys td)
        = Event.taskStarted sys.db.nextTaskId td.name td.command
            td.serverIds.length
            :: ((taskResultsOf env sys td).map
                  (progressEventOf sys.db.nextTaskId) ++ [last]) ∧
      ((∃ e, last = Event.taskFailed sys.db.nextTaskId e) ∨
        (∃ ps, last = Event.taskCompleted sys.db.nextTaskId
          (finalStatusOf (taskResultsOf env sys td))
          (successRateOf (taskResultsOf env sys td))
          (successCountOf (taskResultsOf env sys td))
          (taskResultsOf env sys td).length ps))) ∧
    (∀ j : Nat,
      ((taskResultsOf env sys td).map
          (progressEventOf sys.db.nextTaskId)).get? j
        = ((validServersOf sys.db td.serverIds).get? j).map (fun s =>
            progressEventOf sys.db.nextTaskId
              (executeCommand env s td.command td.options))) ∧
    (∀ j1 j2 : Nat, j1 ≤ j2 →
      j1 / effectiveMaxConcurrent td.options
        ≤ j2 / effectiveMaxConcurrent td.options) := by
  refine ⟨?_, ?_, fun j1 j2 h => Nat.div_le_div_right h⟩
  · by_cases hvs : validServersOf sys.db td.serverIds = []
    · have hres : taskResultsOf env sys td = [] := by
        unfold taskResultsOf
        rw [hvs]
        rfl
      have hcond : ((validServersOf sys.db td.serverIds).length == 0) = true := by
        simp [hvs]
      refine ⟨Event.taskFailed sys.db.nextTaskId "No valid servers found",
        ?_, Or.inl ⟨_, rfl⟩⟩
      unfold executeTaskOps
      simp [hcond, hres, eventsOf]
    · have hcond : ((validServersOf sys.db td.serverIds).length == 0) = false := by
        cases hvl : validServersOf sys.db td.serverIds with
        | nil => exact absurd hvl hvs
        | cons a l => simp
      refine ⟨Event.taskCompleted sys.db.nextTaskId
          (finalStatusOf (taskResultsOf env sys td))
          (successRateOf (taskResultsOf env sys td))
          (successCountOf (taskResultsOf env sys td))
          (taskResultsOf env sys td).length
          ((taskResultsOf env sys td).map (fun r =>
            { serverId := r.server.id, serverName := r.server.name,
              success := r.success, executionTime := r.executionTime })),
        ?_, Or.inr ⟨_, rfl⟩⟩
      unfold executeTaskOps
      simp only [hcond, Bool.false_eq_true, if_false, List.append_eq,
        List.nil_append, List.append_assoc]
      simp only [eventsOf_append, eventsOf_progress_join]
      simp [eventsOf]
  · intro j
    unfold taskResultsOf
    rw [executeBulkCommand_eq_map]
    simp only [List.get?_map]
    cases (validServersOf sys.db td.serverIds).get? j <;> rfl

/-- Witness for C9: at the concrete one-host task, the first progress event
reports the first dispatched host, and the batch index is monotone along the
emission order. -/
theorem claim_C9_witness :
    ((taskResultsOf envKeyOk sysW tdW).map (progressEventOf 1)).get? 0
      = ((validServersOf sysW.db tdW.serverIds).get? 0).map (fun s =>
          progressEventOf 1 (executeCommand envKeyOk s tdW.command tdW.options)) ∧
    0 / effectiveMaxConcurrent tdW.options
      ≤ 1 / effectiveMaxConcurrent tdW.options :=
  ⟨(claim_C9_event_ordering envKeyOk sysW tdW).2.1 0,
   (claim_C9_event_ordering envKeyOk sysW tdW).2.2 0 1 (by decide)⟩

/-- C10: `getTaskStatus` returns an absent result (`null`) when no task row
with the given id exists, rather than raising; when the row exists it returns
the row enriched with the live `isRunning` flag from the registry and with
`results` and `serverIds` decoded from their serialized columns, the decoding
inverting the serialization used at creation. -/
theorem claim_C10_getTaskStatus (sys : Sys) (tid : Nat) :
    (sys.db.tasks.find? (fun r => r.id == tid) = none →
      getTaskStatus sys tid = none) ∧
    (∀ row, sys.db.tasks.find? (fun r => r.id == tid) = some row →
      getTaskStatus sys tid = some
        { id := row.id, name := row.name, command := row.command,
          status := row.status, createdAt := row.createdAt,
          completedAt := row.completedAt,
          isRunning := sys.running.any (fun p => p.1 == tid),
          results := row.resultsJson.map jsonParse,
          serverIds := jsonParse row.serverIdsJson }) ∧
    (∀ ids : List Int, jsonParse (jsonStringify ids) = ids) := by
  refine ⟨?_, ?_, fun _ => rfl⟩
  · intro h
    unfold getTaskStatus
    rw [h]
  · intro row h
    unfold getTaskStatus
    rw [h]

/-- Witness for C10: a missing id yields `none` and the existing row comes
back enriched and decoded. -/
theorem claim_C10_witness :
    getTaskStatus sysFix 5 = none ∧
    getTaskStatus sysFix 1 = some
      { id := 1, name := "t", command := "uptime", status := "pending",
        createdAt := 1, completedAt := none, isRunning := false,
        results := none, serverIds := [1] } :=
  ⟨(claim_C10_getTaskStatus sysFix 5).1 (by decide),
   (claim_C10_getTaskStatus sysFix 1).2.1 rowFix (by decide)⟩

end Aetheria
